import Mathlib

/-!
Shallow embedding of the Mergington High School activities API
(`src/app.py`).  The application keeps two in-memory dictionaries —
`activities` (activity name to activity record) and `teachers`
(username to password) — and exposes four request handlers:
`get_activities`, `login`, `signup_for_activity` and
`unregister_from_activity`.  Dictionaries are modelled as association
lists with unique string keys; each handler becomes a pure function
from the application state to a result (`Except` over the handler's
error taxonomy) paired with the successor state.  Every `raise
HTTPException` in the Python source happens before any mutation, so
returning the unchanged state on the error branches is a literal
translation of the control flow.
-/

/-- Error taxonomy of the handlers: the HTTP status classes 401
(`unauthorized`), 404 (`notFound`) and 400 (`conflict`) raised by
`HTTPException` in `app.py`. -/
inductive HError : Type
  | unauthorized
  | notFound
  | conflict
  deriving DecidableEq, Repr

/-- An activity record as stored in the activities mapping:
description, schedule, capacity (`max_participants`) and the ordered
list of participant emails.  The handlers read and write only the
`participants` field. -/
structure Activity : Type where
  description : String
  schedule : String
  max_participants : Nat
  participants : List String
  deriving DecidableEq, Repr

/-- The whole in-memory state of the application: the activity store
and the teacher credential store, both dictionaries loaded once at
startup. -/
structure AppState : Type where
  activities : List (String × Activity)
  teachers : List (String × String)
  deriving DecidableEq, Repr

/-- Dictionary lookup on an association list (Python `d[k]`, and
`k in d` via `Option.isSome`). -/
def lookup {α : Type} : List (String × α) → String → Option α
  | [], _ => none
  | (k', v) :: rest, k => if k' = k then some v else lookup rest k

/-- Dictionary update at an existing key: Python mutates the record
object held under the key in place, which on an association list with
unique keys is replacement of the value at the first matching key. -/
def setKey {α : Type} : List (String × α) → String → α → List (String × α)
  | [], _, _ => []
  | (k', v') :: rest, k, v =>
      if k' = k then (k', v) :: rest else (k', v') :: setKey rest k v

/-- Removal of the first occurrence of an element
(Python `list.remove`, called only when the element is present). -/
def removeFirst : List String → String → List String
  | [], _ => []
  | x :: xs, e => if x = e then xs else x :: removeFirst xs e

/-- Truthiness of an optional string parameter (Python `if username
and password:`): `None` and the empty string are falsy, every other
string is truthy. -/
def truthy : Option String → Bool
  | none => false
  | some v => v != ""

/-- Handler `GET /activities` (`get_activities` in `app.py`): returns
the complete activity mapping and performs no mutation. -/
def get_activities (s : AppState) :
    Except HError (List (String × Activity)) × AppState :=
  (Except.ok s.activities, s)

/-- Handler `POST /auth/login` (`login` in `app.py`): raises 401 when
the username is absent or the stored password differs from the
supplied one, otherwise returns the confirmation message and the
username.  No mutation. -/
def login (s : AppState) (username password : String) :
    Except HError (String × String) × AppState :=
  match lookup s.teachers username with
  | none => (Except.error HError.unauthorized, s)
  | some pw =>
      if pw ≠ password then (Except.error HError.unauthorized, s)
      else (Except.ok ("Login successful", username), s)

/-- Handler `POST /activities/.../signup` (`signup_for_activity` in
`app.py`): 404 when the activity name is not a key of the store, 400
when the email is already among the participants, otherwise appends
the email to the participant list of that activity. -/
def signup_for_activity (s : AppState) (activity_name email : String) :
    Except HError String × AppState :=
  match lookup s.activities activity_name with
  | none => (Except.error HError.notFound, s)
  | some activity =>
      if email ∈ activity.participants then
        (Except.error HError.conflict, s)
      else
        (Except.ok ("Signed up " ++ email ++ " for " ++ activity_name),
         { s with activities := (setKey s.activities activity_name
             ({ activity with participants := activity.participants ++ [email] })) })

/-- Shared tail of the unregister handler: the existence and
membership checks and the removal, reached once the credential gate
has been passed or skipped. -/
def unregister_core (s : AppState) (activity_name email : String) :
    Except HError String × AppState :=
  match lookup s.activities activity_name with
  | none => (Except.error HError.notFound, s)
  | some activity =>
      if email ∉ activity.participants then
        (Except.error HError.conflict, s)
      else
        (Except.ok ("Unregistered " ++ email ++ " from " ++ activity_name),
         { s with activities := (setKey s.activities activity_name
             ({ activity with participants := removeFirst activity.participants email })) })

/-- Handler `DELETE /activities/.../unregister`
(`unregister_from_activity` in `app.py`): when both optional
credential parameters are truthy they are checked against the teacher
store (401 on mismatch); otherwise the check is skipped entirely.
Afterwards the existence and membership checks run and the email is
removed. -/
def unregister_from_activity (s : AppState) (activity_name email : String)
    (username password : Option String) : Except HError String × AppState :=
  if truthy username && truthy password then
    match lookup s.teachers (username.getD "") with
    | none => (Except.error HError.unauthorized, s)
    | some pw =>
        if pw ≠ password.getD "" then (Except.error HError.unauthorized, s)
        else unregister_core s activity_name email
  else unregister_core s activity_name email

/-- Invariant of the data model: within every activity of the store,
the participant list has no duplicate email. -/
def NoDupInvariant (s : AppState) : Prop :=
  ∀ q ∈ s.activities, (Prod.snd q).participants.Nodup

/-- The credential gate of `unregister_from_activity` does not fire:
either the two parameters are not both truthy, or they match a stored
credential exactly. -/
def authPasses (s : AppState) (username password : Option String) : Prop :=
  (truthy username && truthy password) = false ∨
    lookup s.teachers (username.getD "") = some (password.getD "")

/-- Non-participant fields of an activity record, used to state that
mutations touch only the participant list. -/
def metaOf (a : Activity) : String × String × Nat :=
  (a.description, a.schedule, a.max_participants)

theorem lookup_mem {α : Type} {l : List (String × α)} {k : String} {v : α}
    (h : lookup l k = some v) : (k, v) ∈ l := by
  induction l with
  | nil => simp [lookup] at h
  | cons hd tl ih =>
      obtain ⟨k', v'⟩ := hd
      by_cases hk : k' = k
      · subst hk
        simp [lookup] at h
        subst h
        exact List.mem_cons_self _ _
      · simp [lookup, hk] at h
        exact List.mem_cons_of_mem _ (ih h)

theorem lookup_setKey_self {α : Type} {l : List (String × α)} {k : String}
    {v₀ : α} (h : lookup l k = some v₀) (v : α) :
    lookup (setKey l k v) k = some v := by
  induction l with
  | nil => simp [lookup] at h
  | cons hd tl ih =>
      obtain ⟨k', v'⟩ := hd
      by_cases hk : k' = k
      · simp [lookup, setKey, hk]
      · simp [lookup, setKey, hk] at h ⊢
        exact ih h

theorem lookup_setKey_ne {α : Type} (l : List (String × α)) {k k' : String}
    (hne : k' ≠ k) (v : α) : lookup (setKey l k v) k' = lookup l k' := by
  induction l with
  | nil => simp [setKey]
  | cons hd tl ih =>
      obtain ⟨k₀, v₀⟩ := hd
      by_cases hk : k₀ = k
      · subst hk
        have hne' : k₀ ≠ k' := fun h => hne h.symm
        simp [setKey, lookup, hne']
      · simp [setKey, lookup, hk]
        by_cases hk' : k₀ = k'
        · simp [hk']
        · simp [hk', ih]

theorem setKey_map_fst {α : Type} (l : List (String × α)) (k : String) (v : α) :
    (setKey l k v).map Prod.fst = l.map Prod.fst := by
  induction l with
  | nil => simp [setKey]
  | cons hd tl ih =>
      obtain ⟨k₀, v₀⟩ := hd
      by_cases hk : k₀ = k
      · simp [setKey, hk]
      · simp [setKey, hk, ih]

theorem mem_setKey {α : Type} {l : List (String × α)} {k : String} {v : α}
    {q : String × α} (h : q ∈ setKey l k v) : q ∈ l ∨ q.2 = v := by
  induction l with
  | nil => simp [setKey] at h
  | cons hd tl ih =>
      obtain ⟨k₀, v₀⟩ := hd
      by_cases hk : k₀ = k
      · simp [setKey, hk] at h
        rcases h with h | h
        · right
          rw [h]
        · left
          exact List.mem_cons_of_mem _ h
      · simp [setKey, hk] at h
        rcases h with h | h
        · left
          simp [h]
        · rcases ih h with h' | h'
          · exact Or.inl (List.mem_cons_of_mem _ h')
          · exact Or.inr h'

theorem removeFirst_sublist (l : List String) (e : String) :
    List.Sublist (removeFirst l e) l := by
  induction l with
  | nil => simp [removeFirst]
  | cons x xs ih =>
      by_cases hx : x = e
      · simp [removeFirst, hx]
      · simp [removeFirst, hx]
        exact ih

theorem mem_removeFirst_of_ne {l : List String} {e x : String} (hne : x ≠ e) :
    x ∈ removeFirst l e ↔ x ∈ l := by
  induction l with
  | nil => simp [removeFirst]
  | cons y ys ih =>
      by_cases hy : y = e
      · subst hy
        simp [removeFirst, hne]
      · simp [removeFirst, hy, ih]

theorem not_mem_removeFirst {l : List String} {e : String} (hnd : l.Nodup) :
    e ∉ removeFirst l e := by
  induction l with
  | nil => simp [removeFirst]
  | cons y ys ih =>
      rcases List.nodup_cons.mp hnd with ⟨hy, hys⟩
      by_cases he : y = e
      · subst he
        simp [removeFirst]
        exact hy
      · simp [removeFirst, he]
        exact ⟨fun h => he h.symm, ih hys⟩

theorem nodup_removeFirst {l : List String} (e : String) (hnd : l.Nodup) :
    (removeFirst l e).Nodup :=
  List.Nodup.sublist (removeFirst_sublist l e) hnd

theorem removeFirst_length {l : List String} {e : String} (h : e ∈ l) :
    (removeFirst l e).length + 1 = l.length := by
  induction l with
  | nil => simp at h
  | cons y ys ih =>
      by_cases hy : y = e
      · simp [removeFirst, hy]
      · have h' : e ∈ ys := by
          rcases List.mem_cons.mp h with h'' | h''
          · exact absurd h''.symm hy
          · exact h''
        simp [removeFirst, hy]
        exact ih h'

theorem nodup_append_singleton {l : List String} {e : String}
    (hnd : l.Nodup) (he : e ∉ l) : (l ++ [e]).Nodup := by
  rw [List.nodup_append]
  refine ⟨hnd, List.nodup_singleton e, ?_⟩
  intro x hx hx'
  rcases List.mem_singleton.mp hx' with rfl
  exact he hx

theorem login_snd (s : AppState) (u p : String) : (login s u p).snd = s := by
  unfold login
  cases hl : lookup s.teachers u with
  | none => rfl
  | some pw => by_cases hp : pw ≠ p <;> simp [hp]

theorem signup_snd_cases (s : AppState) (an em : String) :
    (signup_for_activity s an em).snd = s ∨
    ∃ a, lookup s.activities an = some a ∧ em ∉ a.participants ∧
      signup_for_activity s an em =
        (Except.ok ("Signed up " ++ em ++ " for " ++ an),
         { s with activities := (setKey s.activities an
             ({ a with participants := a.participants ++ [em] })) }) := by
  unfold signup_for_activity
  cases hl : lookup s.activities an with
  | none => exact Or.inl rfl
  | some a =>
      by_cases hm : em ∈ a.participants
      · simp [hm]
      · simp [hm]

theorem core_snd_cases (s : AppState) (an em : String) :
    (unregister_core s an em).snd = s ∨
    ∃ a, lookup s.activities an = some a ∧ em ∈ a.participants ∧
      unregister_core s an em =
        (Except.ok ("Unregistered " ++ em ++ " from " ++ an),
         { s with activities := (setKey s.activities an
             ({ a with participants := removeFirst a.participants em })) }) := by
  unfold unregister_core
  cases hl : lookup s.activities an with
  | none => exact Or.inl rfl
  | some a =>
      by_cases hm : em ∈ a.participants
      · simp [hm]
      · simp [hm]

theorem unregister_cases (s : AppState) (an em : String) (u p : Option String) :
    unregister_from_activity s an em u p = (Except.error HError.unauthorized, s) ∨
    unregister_from_activity s an em u p = unregister_core s an em := by
  unfold unregister_from_activity
  by_cases hb : (truthy u && truthy p) = true
  · rw [if_pos hb]
    cases hl : lookup s.teachers (u.getD "") with
    | none => exact Or.inl rfl
    | some pw =>
        by_cases hp : pw = p.getD ""
        · simp [hp]
        · simp [hp]
  · rw [if_neg hb]
    exact Or.inr rfl

theorem unregister_eq_core {s : AppState} (an em : String) {u p : Option String}
    (h : authPasses s u p) :
    unregister_from_activity s an em u p = unregister_core s an em := by
  unfold unregister_from_activity
  rcases h with h | h
  · rw [if_neg]
    intro hc
    rw [h] at hc
    exact Bool.false_ne_true hc
  · by_cases hb : (truthy u && truthy p) = true
    · rw [if_pos hb, h]
      simp
    · rw [if_neg hb]

theorem core_error_snd {s : AppState} {an em : String} {e : HError}
    (h : (unregister_core s an em).fst = Except.error e) :
    (unregister_core s an em).snd = s := by
  rcases core_snd_cases s an em with hc | ⟨a, _, _, hc⟩
  · exact hc
  · rw [hc] at h
    simp at h

theorem signup_error_snd {s : AppState} {an em : String} {e : HError}
    (h : (signup_for_activity s an em).fst = Except.error e) :
    (signup_for_activity s an em).snd = s := by
  rcases signup_snd_cases s an em with hc | ⟨a, _, _, hc⟩
  · exact hc
  · rw [hc] at h
    simp at h

/-- Test fixture: the chess-club activity record with one registered
participant. -/
def chessClub : Activity :=
  { description := "Weekly chess games",
    schedule := "Fridays",
    max_participants := 12,
    participants := ["a@x.com"] }

/-- Test fixture: one activity with one participant and one stored
teacher credential, mirroring the scenario of the specification. -/
def st0 : AppState :=
  { activities := [("Chess Club", chessClub)],
    teachers := [("teacher1", "pass1")] }

/-- Test fixture: an activity whose participant list is already at the
stated capacity. -/
def st1 : AppState :=
  { activities := [("Chess Club",
      { description := "Weekly chess games",
        schedule := "Fridays",
        max_participants := 1,
        participants := ["a@x.com"] })],
    teachers := [] }

/-- Claim C1 is refuted on the code: with both credential parameters
supplied as empty strings — a pair that matches no stored teacher
credential — unregister does not signal Unauthorized; the truthiness
gate skips the check and the call succeeds. -/
theorem C1_counterexample :
    lookup st0.teachers "" = none ∧
    (unregister_from_activity st0 "Chess Club" "a@x.com"
        (some "") (some "")).fst =
      Except.ok "Unregistered a@x.com from Chess Club" := by
  exact ⟨rfl, rfl⟩

/-- Claim C1 as amended: if both username and password are supplied as
non-empty strings, the pair must exactly match a stored teacher
credential, else unregister signals Unauthorized with state unchanged,
before any other check; if neither parameter is supplied the operation
runs exactly the unauthenticated core, with no credential check. -/
theorem C1_auth_gate (s : AppState) (an em : String) (u p : Option String) :
    ((truthy u && truthy p) = true →
      lookup s.teachers (u.getD "") ≠ some (p.getD "") →
      unregister_from_activity s an em u p =
        (Except.error HError.unauthorized, s)) ∧
    unregister_from_activity s an em none none = unregister_core s an em := by
  constructor
  · intro hb hmatch
    unfold unregister_from_activity
    rw [if_pos hb]
    cases hl : lookup s.teachers (u.getD "") with
    | none => rfl
    | some pw =>
        have hne : pw ≠ p.getD "" := fun hc => hmatch (by rw [hl, hc])
        simp [hne]
  · rfl

/-- Witness for the amended claim C1: a wrong password from a real
teacher username is rejected with Unauthorized on the concrete state
`st0`, and the credential-free call runs the unauthenticated core. -/
theorem C1_auth_gate_witness :
    unregister_from_activity st0 "Chess Club" "a@x.com"
        (some "teacher1") (some "wrong") =
      (Except.error HError.unauthorized, st0) :=
  (C1_auth_gate st0 "Chess Club" "a@x.com" (some "teacher1") (some "wrong")).1
    (by decide) (by decide)

/-- Claim C2: for an existing activity and an email not yet among its
participants, signup succeeds and the resulting store holds that
activity with the email appended at the end of the participant list.
No hypothesis on `max_participants` is needed: the handler performs no
capacity check, so this holds however the participant count compares
to the capacity attribute. -/
theorem C2_signup_appends (s : AppState) (an em : String) (a : Activity)
    (hl : lookup s.activities an = some a) (hm : em ∉ a.participants) :
    signup_for_activity s an em =
      (Except.ok ("Signed up " ++ em ++ " for " ++ an),
       { s with activities := (setKey s.activities an
           ({ a with participants := a.participants ++ [em] })) }) ∧
    lookup (signup_for_activity s an em).snd.activities an =
      some ({ a with participants := a.participants ++ [em] }) := by
  have h1 : signup_for_activity s an em =
      (Except.ok ("Signed up " ++ em ++ " for " ++ an),
       { s with activities := (setKey s.activities an
           ({ a with participants := a.participants ++ [em] })) }) := by
    unfold signup_for_activity
    rw [hl]
    simp [hm]
  refine ⟨h1, ?_⟩
  rw [h1]
  exact lookup_setKey_self hl _

/-- Witness for claim C2 on the concrete state `st1`, whose single
activity is already at capacity (one participant, capacity one): the
signup still succeeds and appends the new email at the end. -/
theorem C2_signup_appends_witness :
    lookup (signup_for_activity st1 "Chess Club" "b@x.com").snd.activities
        "Chess Club" =
      some { description := "Weekly chess games", schedule := "Fridays",
             max_participants := 1,
             participants := ["a@x.com", "b@x.com"] } :=
  (C2_signup_appends st1 "Chess Club" "b@x.com"
      { description := "Weekly chess games", schedule := "Fridays",
        max_participants := 1, participants := ["a@x.com"] }
      rfl (by decide)).2

/-- Claim C3: login succeeds with the confirmation message and the
username exactly when the username is a key of the credential store
and the stored password equals the supplied one (case-sensitive string
equality); in every other case it signals Unauthorized.  The state is
unchanged either way. -/
theorem C3_login_iff (s : AppState) (u p : String) :
    (lookup s.teachers u = some p →
      login s u p = (Except.ok ("Login successful", u), s)) ∧
    (lookup s.teachers u ≠ some p →
      login s u p = (Except.error HError.unauthorized, s)) := by
  constructor
  · intro h
    unfold login
    rw [h]
    simp
  · intro h
    unfold login
    cases hl : lookup s.teachers u with
    | none => rfl
    | some pw =>
        have hne : pw ≠ p := fun hc => h (by rw [hl, hc])
        simp [hne]

/-- Witness for claim C3 on `st0`: the exact stored pair logs in, and
a password off by one character is rejected. -/
theorem C3_login_iff_witness :
    login st0 "teacher1" "pass1" =
      (Except.ok ("Login successful", "teacher1"), st0) ∧
    login st0 "teacher1" "pass2" = (Except.error HError.unauthorized, st0) :=
  ⟨(C3_login_iff st0 "teacher1" "pass1").1 (by decide),
   (C3_login_iff st0 "teacher1" "pass2").2 (by decide)⟩

/-- Claim C4: signup checks existence first — NotFound when the
activity name is not a key of the store — then duplicate membership —
Conflict when the email is already a participant — and a successful
signup immediately repeated with identical arguments signals Conflict
on the second call. -/
theorem C4_signup_errors (s : AppState) (an em : String) :
    (lookup s.activities an = none →
      signup_for_activity s an em = (Except.error HError.notFound, s)) ∧
    (∀ a, lookup s.activities an = some a → em ∈ a.participants →
      signup_for_activity s an em = (Except.error HError.conflict, s)) ∧
    (∀ r, (signup_for_activity s an em).fst = Except.ok r →
      (signup_for_activity (signup_for_activity s an em).snd an em).fst =
        Except.error HError.conflict) := by
  refine ⟨?_, ?_, ?_⟩
  · intro h
    unfold signup_for_activity
    rw [h]
  · intro a hl hm
    unfold signup_for_activity
    rw [hl]
    simp [hm]
  · intro r hr
    cases hl : lookup s.activities an with
    | none =>
        unfold signup_for_activity at hr
        rw [hl] at hr
        simp at hr
    | some a =>
        by_cases hm : em ∈ a.participants
        · unfold signup_for_activity at hr
          rw [hl] at hr
          simp [hm] at hr
        · have hstep := (C2_signup_appends s an em a hl hm).1
          rw [hstep]
          have hl2 : lookup (setKey s.activities an
              ({ a with participants := a.participants ++ [em] })) an =
              some ({ a with participants := a.participants ++ [em] }) :=
            lookup_setKey_self hl _
          unfold signup_for_activity
          simp [hl2, List.mem_append]

/-- Claim C5: when the credential gate passes or is skipped,
unregister signals NotFound when the activity name is not a key of the
store, and Conflict when the email is not currently among that
activity's participants; the state is unchanged in both cases. -/
theorem C5_unregister_errors (s : AppState) (an em : String)
    (u p : Option String) (hauth : authPasses s u p) :
    (lookup s.activities an = none →
      unregister_from_activity s an em u p =
        (Except.error HError.notFound, s)) ∧
    (∀ a, lookup s.activities an = some a → em ∉ a.participants →
      unregister_from_activity s an em u p =
        (Except.error HError.conflict, s)) := by
  rw [unregister_eq_core an em hauth]
  constructor
  · intro h
    unfold unregister_core
    rw [h]
  · intro a hl hm
    unfold unregister_core
    rw [hl]
    simp [hm]

/-- Witness for claim C5 on `st0`: an unknown activity yields NotFound
without credentials, and a non-member email yields Conflict with valid
teacher credentials. -/
theorem C5_unregister_errors_witness :
    unregister_from_activity st0 "Art Club" "a@x.com" none none =
      (Except.error HError.notFound, st0) ∧
    unregister_from_activity st0 "Chess Club" "z@x.com"
        (some "teacher1") (some "pass1") =
      (Except.error HError.conflict, st0) :=
  ⟨(C5_unregister_errors st0 "Art Club" "a@x.com" none none
      (Or.inl rfl)).1 (by decide),
   (C5_unregister_errors st0 "Chess Club" "z@x.com"
      (some "teacher1") (some "pass1") (Or.inr (by decide))).2
     chessClub rfl (by decide)⟩

/-- Claim C6: a successful unregister of a current participant removes
exactly that email — it is absent afterwards, every other email's
membership is unchanged, and the length drops by one — and leaves the
other fields of that activity, every other activity of the store, and
the credential store unchanged. -/
theorem C6_unregister_removes (s : AppState) (an em : String)
    (u p : Option String) (a : Activity)
    (hl : lookup s.activities an = some a) (hm : em ∈ a.participants)
    (hnd : a.participants.Nodup) (hauth : authPasses s u p) :
    (unregister_from_activity s an em u p).fst =
      Except.ok ("Unregistered " ++ em ++ " from " ++ an) ∧
    lookup (unregister_from_activity s an em u p).snd.activities an =
      some ({ a with participants := removeFirst a.participants em }) ∧
    em ∉ removeFirst a.participants em ∧
    (∀ x, x ≠ em → (x ∈ removeFirst a.participants em ↔ x ∈ a.participants)) ∧
    (removeFirst a.participants em).length + 1 = a.participants.length ∧
    (∀ n, n ≠ an →
      lookup (unregister_from_activity s an em u p).snd.activities n =
        lookup s.activities n) ∧
    (unregister_from_activity s an em u p).snd.teachers = s.teachers := by
  have hstep : unregister_from_activity s an em u p =
      (Except.ok ("Unregistered " ++ em ++ " from " ++ an),
       { s with activities := (setKey s.activities an
           ({ a with participants := removeFirst a.participants em })) }) := by
    rw [unregister_eq_core an em hauth]
    unfold unregister_core
    rw [hl]
    simp [hm]
  rw [hstep]
  refine ⟨rfl, lookup_setKey_self hl _, not_mem_removeFirst hnd,
    fun x hx => mem_removeFirst_of_ne hx, removeFirst_length hm,
    fun n hn => lookup_setKey_ne s.activities hn _, rfl⟩

/-- Witness for claim C6 on `st0`: unregistering the sole participant
of the chess club without credentials succeeds and empties the
participant list. -/
theorem C6_unregister_removes_witness :
    (unregister_from_activity st0 "Chess Club" "a@x.com" none none).fst =
      Except.ok "Unregistered a@x.com from Chess Club" ∧
    lookup (unregister_from_activity st0 "Chess Club" "a@x.com"
        none none).snd.activities "Chess Club" =
      some ({ chessClub with participants := [] }) :=
  ⟨(C6_unregister_removes st0 "Chess Club" "a@x.com" none none chessClub
      rfl (by decide) (by decide) (Or.inl rfl)).1,
   (C6_unregister_removes st0 "Chess Club" "a@x.com" none none chessClub
      rfl (by decide) (by decide) (Or.inl rfl)).2.1⟩

/-- Claim C7: the no-duplicate invariant on every activity's
participant list is preserved by each of the four operations — list,
login, signup and unregister — whether the call succeeds or signals an
error. -/
theorem C7_nodup_preserved (s : AppState) (hinv : NoDupInvariant s) :
    NoDupInvariant (get_activities s).snd ∧
    (∀ u p, NoDupInvariant (login s u p).snd) ∧
    (∀ an em, NoDupInvariant (signup_for_activity s an em).snd) ∧
    (∀ an em u p,
      NoDupInvariant (unregister_from_activity s an em u p).snd) := by
  have hcore : ∀ an em, NoDupInvariant (unregister_core s an em).snd := by
    intro an em
    rcases core_snd_cases s an em with hc | ⟨a, hl, _, hc⟩
    · rw [hc]
      exact hinv
    · rw [hc]
      unfold NoDupInvariant
      intro q hq
      rcases mem_setKey hq with hq' | hq'
      · exact hinv q hq'
      · rw [hq']
        exact nodup_removeFirst em (hinv _ (lookup_mem hl))
  refine ⟨hinv, fun u p => ?_, fun an em => ?_, fun an em u p => ?_⟩
  · rw [login_snd]
    exact hinv
  · rcases signup_snd_cases s an em with hc | ⟨a, hl, hm, hc⟩
    · rw [hc]
      exact hinv
    · rw [hc]
      unfold NoDupInvariant
      intro q hq
      rcases mem_setKey hq with hq' | hq'
      · exact hinv q hq'
      · rw [hq']
        exact nodup_append_singleton (hinv _ (lookup_mem hl)) hm
  · rcases unregister_cases s an em u p with hc | hc
    · rw [hc]
      exact hinv
    · rw [hc]
      exact hcore an em

/-- Witness for claim C7 on `st0`: the invariant holds after a
successful signup of a new email. -/
theorem C7_nodup_preserved_witness :
    NoDupInvariant (signup_for_activity st0 "Chess Club" "b@x.com").snd :=
  (C7_nodup_preserved st0
      (by unfold NoDupInvariant; decide)).2.2.1 "Chess Club" "b@x.com"

/-- Claim C8: no operation changes the set of activity names and none
mutates the credential store — the two read operations leave the whole
state untouched, and the two mutating operations preserve the key list
of the activity store, the credential store, and every activity's
non-participant fields; only a participant list is ever changed. -/
theorem C8_frame (s : AppState) :
    (get_activities s).snd = s ∧
    (∀ u p, (login s u p).snd = s) ∧
    (∀ an em,
      (signup_for_activity s an em).snd.teachers = s.teachers ∧
      (signup_for_activity s an em).snd.activities.map Prod.fst =
        s.activities.map Prod.fst ∧
      ∀ n, (lookup (signup_for_activity s an em).snd.activities n).map metaOf =
        (lookup s.activities n).map metaOf) ∧
    (∀ an em u p,
      (unregister_from_activity s an em u p).snd.teachers = s.teachers ∧
      (unregister_from_activity s an em u p).snd.activities.map Prod.fst =
        s.activities.map Prod.fst ∧
      ∀ n, (lookup (unregister_from_activity s an em u p).snd.activities n).map
          metaOf = (lookup s.activities n).map metaOf) := by
  have hmeta : ∀ (k : String) (a a' : Activity),
      lookup s.activities k = some a → metaOf a' = metaOf a →
      ∀ n, (lookup (setKey s.activities k a') n).map metaOf =
        (lookup s.activities n).map metaOf := by
    intro k a a' hl hmm n
    by_cases hn : n = k
    · subst hn
      rw [lookup_setKey_self hl, hl]
      simp [hmm]
    · rw [lookup_setKey_ne s.activities hn a']
  refine ⟨rfl, fun u p => login_snd s u p, fun an em => ?_, fun an em u p => ?_⟩
  · rcases signup_snd_cases s an em with hc | ⟨a, hl, _, hc⟩
    · rw [hc]
      exact ⟨rfl, rfl, fun n => rfl⟩
    · rw [hc]
      exact ⟨rfl, setKey_map_fst s.activities an _, hmeta an a _ hl rfl⟩
  · have hcore :
        (unregister_core s an em).snd.teachers = s.teachers ∧
        (unregister_core s an em).snd.activities.map Prod.fst =
          s.activities.map Prod.fst ∧
        ∀ n, (lookup (unregister_core s an em).snd.activities n).map metaOf =
          (lookup s.activities n).map metaOf := by
      rcases core_snd_cases s an em with hc | ⟨a, hl, _, hc⟩
      · rw [hc]
        exact ⟨rfl, rfl, fun n => rfl⟩
      · rw [hc]
        exact ⟨rfl, setKey_map_fst s.activities an _, hmeta an a _ hl rfl⟩
    rcases unregister_cases s an em u p with hc | hc
    · rw [hc]
      exact ⟨rfl, rfl, fun n => rfl⟩
    · rw [hc]
      exact hcore

/-- Claim C9: whenever any of the four operations signals an error —
Unauthorized, NotFound or Conflict — the returned state is exactly the
input state: every error is raised before any mutation. -/
theorem C9_error_atomicity (s : AppState) :
    (∀ e, (get_activities s).fst = Except.error e →
      (get_activities s).snd = s) ∧
    (∀ u p e, (login s u p).fst = Except.error e → (login s u p).snd = s) ∧
    (∀ an em e, (signup_for_activity s an em).fst = Except.error e →
      (signup_for_activity s an em).snd = s) ∧
    (∀ an em u p e,
      (unregister_from_activity s an em u p).fst = Except.error e →
      (unregister_from_activity s an em u p).snd = s) := by
  refine ⟨fun e _ => rfl, fun u p e _ => login_snd s u p,
    fun an em e h => signup_error_snd h, fun an em u p e h => ?_⟩
  rcases unregister_cases s an em u p with hc | hc
  · rw [hc]
  · rw [hc] at h ⊢
    exact core_error_snd h

/-- Witness for claim C9 on `st0`: a signup on an unknown activity
signals NotFound and leaves the state unchanged. -/
theorem C9_error_atomicity_witness :
    (signup_for_activity st0 "Art Club" "b@x.com").snd = st0 :=
  (C9_error_atomicity st0).2.2.1 "Art Club" "b@x.com" HError.notFound rfl

/-- Claim C10: when exactly one of the two credential parameters is
supplied, or either supplied value is the empty string, the truthiness
gate is falsy, the credential check is skipped entirely, and the call
behaves exactly like the credential-free call. -/
theorem C10_truthiness (s : AppState) (an em : String) (u p : Option String)
    (h : u.isSome ≠ p.isSome ∨ u = some "" ∨ p = some "") :
    unregister_from_activity s an em u p =
      unregister_from_activity s an em none none := by
  have hfalse : (truthy u && truthy p) = false := by
    rcases h with h | h | h
    · cases u with
      | none =>
          cases p with
          | none => simp at h
          | some b => rfl
      | some a =>
          cases p with
          | none => simp [truthy]
          | some b => simp at h
    · rw [h]
      rfl
    · rw [h]
      simp [truthy]
  have h2 : unregister_from_activity s an em none none =
      unregister_core s an em :=
    unregister_eq_core an em (Or.inl rfl)
  rw [unregister_eq_core an em (Or.inl hfalse), h2]

/-- Witness for claim C10 on `st0`: a call carrying only a username —
even a valid teacher's — behaves exactly like the credential-free
call. -/
theorem C10_truthiness_witness :
    unregister_from_activity st0 "Chess Club" "a@x.com"
        (some "teacher1") none =
      unregister_from_activity st0 "Chess Club" "a@x.com" none none :=
  C10_truthiness st0 "Chess Club" "a@x.com" (some "teacher1") none
    (Or.inl (by decide))

/-- Witness for claim C4 on `st0`: signup on an unknown activity is
NotFound, duplicate signup is Conflict, and an immediate repetition of
a successful signup is Conflict on the second call. -/
theorem C4_signup_errors_witness :
    signup_for_activity st0 "Art Club" "b@x.com" =
      (Except.error HError.notFound, st0) ∧
    signup_for_activity st0 "Chess Club" "a@x.com" =
      (Except.error HError.conflict, st0) ∧
    (signup_for_activity
        (signup_for_activity st0 "Chess Club" "b@x.com").snd
        "Chess Club" "b@x.com").fst = Except.error HError.conflict :=
  ⟨(C4_signup_errors st0 "Art Club" "b@x.com").1 rfl,
   (C4_signup_errors st0 "Chess Club" "a@x.com").2.1 chessClub rfl (by decide),
   (C4_signup_errors st0 "Chess Club" "b@x.com").2.2
     "Signed up b@x.com for Chess Club" rfl⟩
